import Mathlib

/-!
Shallow embedding of the local content-addressed cache of `dvc/remote/local.py`
(class `RemoteLOCAL`): the status reconciler, the transfer engine, the four
materialization strategies, and the protect/unprotect protocol.

Filesystem-effecting code is embedded as functions producing explicit traces of
filesystem operations (`FsOp`); fallible code returns `Except`. Interactions
with the operating system (chmod outcomes, local/remote presence, link success)
are passed in as explicit parameters, so every definition is a pure, executable
function of its inputs.
-/

namespace DVC

/-- Cache/working-tree statuses.  The numeric codes live in `dvc/remote/base.py`;
only the four two-sided statuses are reachable from `_fill_statuses`. -/
inductive Status
  | ok
  | missing
  | new
  | deleted
deriving DecidableEq, Repr

/-- Modelled from the spec: `STATUS_MAP` is defined in `dvc/remote/base.py`, which is
not among the provided sources.  Spec §4.7 fixes the `(in_local, in_remote) → status`
table: `(F,F) → MISSING`, `(T,F) → NEW`, `(F,T) → DELETED`, `(T,T) → OK`; the worked
example S4 (`L={c1,c2}`, `R={c2,c3}` gives `c1→NEW, c2→OK, c3→DELETED, c4→MISSING`)
confirms this reading. -/
def STATUS_MAP : Bool × Bool → Status
  | (true, true) => .ok
  | (false, false) => .missing
  | (true, false) => .new
  | (false, true) => .deleted

/-- `RemoteLOCAL._fill_statuses`: for each named checksum, look up its status in
`STATUS_MAP` keyed by membership in the local and remote presence lists.
The named cache's checksum-keyed dict is embedded as the list of its keys. -/
def _fill_statuses (named : List String) (local_exists remote_exists : List String) :
    List (String × Status) :=
  named.map fun md5 => (md5, STATUS_MAP (local_exists.contains md5, remote_exists.contains md5))

/-- Outcome of `RemoteLOCAL.status`: whether the remote presence query
(`remote.cache_exists`) was invoked, and the resulting remote presence list. -/
structure StatusProbe where
  remoteQueried : Bool
  remote_exists : List String
deriving DecidableEq, Repr

/-- `RemoteLOCAL.status`, the presence-collection part: `local_exists` is the sublist
of `md5s` present locally (`cache_exists` filters); when `download` is set and
`sorted(local_exists) == sorted(md5s)` (equal as multisets, since `local_exists` is a
sublist of `md5s`), the remote probe is skipped and `remote_exists = local_exists`;
otherwise the remote is queried, returning the sublist of `md5s` present remotely. -/
def status (download : Bool) (md5s : List String)
    (localPresent remotePresent : String → Bool) : StatusProbe :=
  if download = true ∧
      ((md5s.filter localPresent : List String) : Multiset String) =
        (md5s : Multiset String) then
    ⟨false, md5s.filter localPresent⟩
  else
    ⟨true, md5s.filter remotePresent⟩

/-- Errors raised by the transfer engine (`dvc.exceptions.DownloadError` /
`UploadError`, carrying the failure count). -/
inductive TransferError
  | downloadError (n : Nat)
  | uploadError (n : Nat)
deriving DecidableEq, Repr

/-- `RemoteLOCAL._process`, given the per-object worker results (each worker returns
`1` for a failed transfer, `0` for a successful one; one result per plan entry):
an empty plan returns `0` immediately; otherwise the failure counts are summed and,
if nonzero, `DownloadError`/`UploadError` is raised with the sum; on no failures the
number of attempted transfers (the plan length) is returned. -/
def _process (download : Bool) (results : List Nat) : Except TransferError Nat :=
  if results.length = 0 then
    .ok 0
  else
    let fails := results.sum
    if fails ≠ 0 then
      if download then .error (.downloadError fails) else .error (.uploadError fails)
    else
      .ok results.length

/-- `RemoteLOCAL.push` runs `_process` with `download=False`. -/
def push (results : List Nat) : Except TransferError Nat :=
  _process false results

/-- `RemoteLOCAL.pull` runs `_process` with `download=True`. -/
def pull (results : List Nat) : Except TransferError Nat :=
  _process true results

/-- A filesystem path, split into the containing directory and the final name, the two
pieces the materializer manipulates (`path_info.parent` and `path_info.name`). -/
structure Path where
  dir : String
  name : String
deriving DecidableEq, Repr

/-- `os.fspath` rendering of a `Path`. -/
def Path.fspath (p : Path) : String :=
  p.dir ++ "/" ++ p.name

/-- One filesystem operation, as issued by the materializer and the
protect/unprotect protocol.  A trace (`List FsOp`) records the operations a method
performs, in order. -/
inductive FsOp
  | copyTo (src dst : Path)
  | chmodOp (p : Path) (mode : Nat)
  | renameOp (src dst : Path)
  | symlinkOp (src dst : Path)
  | hardlinkOp (src dst : Path)
  | reflinkOp (src dst : Path)
  | createEmpty (p : Path)
  | removeOp (p : Path)
  | makedirsOp (p : Path)
  | linkOp (src dst : Path) (link_types : List String)
  | stateSave (p : Path) (checksum : String)
deriving DecidableEq, Repr

/-- The path an operation writes to (creates, replaces, or mutates). -/
def FsOp.target : FsOp → Path
  | .copyTo _ d => d
  | .chmodOp p _ => p
  | .renameOp _ d => d
  | .symlinkOp _ d => d
  | .hardlinkOp _ d => d
  | .reflinkOp _ d => d
  | .createEmpty p => p
  | .removeOp p => p
  | .makedirsOp p => p
  | .linkOp _ d _ => d
  | .stateSave p _ => p

/-- Modelled from the spec: `dvc.utils.tmp_fname` is not among the provided sources;
§4.3 and §6 place in-flight temporaries at `<parent>/.<uuid>`, so the temporary name
for uuid `u` is `.` followed by `u`. -/
def tmp_fname (u : String) : String :=
  "." ++ u

/-- `RemoteLOCAL.copy` (success path): copy the source to a temporary in the
destination's parent, chmod it to the configured per-file mode, rename into place. -/
def copy (from_info to_info : Path) (u : String) (file_mode : Nat) : List FsOp :=
  let tmp_info : Path := ⟨to_info.dir, tmp_fname u⟩
  [.copyTo from_info tmp_info, .chmodOp tmp_info file_mode, .renameOp tmp_info to_info]

/-- `RemoteLOCAL.reflink`: reflink the source to a temporary in the destination's
parent, chmod it (a reflink has its own inode), rename into place. -/
def reflink (from_info to_info : Path) (u : String) (file_mode : Nat) : List FsOp :=
  let tmp_info : Path := ⟨to_info.dir, tmp_fname u⟩
  [.reflinkOp from_info tmp_info, .chmodOp tmp_info file_mode, .renameOp tmp_info to_info]

/-- `RemoteLOCAL.symlink`: a single `System.symlink` call on the destination itself. -/
def symlink (from_info to_info : Path) : List FsOp :=
  [.symlinkOp from_info to_info]

/-- `RemoteLOCAL.hardlink`: when the source has size zero, open the destination for
writing and close it (a fresh empty file, to dodge per-inode link caps); otherwise a
single `System.hardlink` call on the destination itself. -/
def hardlink (from_info to_info : Path) (src_size : Nat) : List FsOp :=
  if src_size = 0 then
    [.createEmpty to_info]
  else
    [.hardlinkOp from_info to_info]

/-- Whether a trace places its result at `dest` by writing only a dot-prefixed
temporary in `dest`'s parent and finally renaming that temporary onto `dest`:
the last operation is `rename tmp dest` with `tmp` dot-prefixed in `dest.dir`, and no
earlier operation targets `dest`. -/
def placesViaTmpRename (trace : List FsOp) (dest : Path) : Bool :=
  match trace.getLast? with
  | some (.renameOp tmp dst) =>
      dst = dest ∧ tmp.dir = dest.dir ∧ tmp.name.data.head? = some '.' ∧
        trace.dropLast.all fun op => op.target ≠ dest
  | _ => false

/-- Modelled from the spec: `RemoteBASE._verify_link` lives in `dvc/remote/base.py`,
which is not among the provided sources; §4.3 says that after a hardlink
materialization the result must share inode identity with the source
(the `is_hardlink` check), failing otherwise.  `passes` is the outcome of that
inode-identity check on the materialized path. -/
def base_verify_link (passes : Bool) : Except String Unit :=
  if passes then .ok () else .error "link verification failed"

/-- `RemoteLOCAL._verify_link`: skip verification entirely for a zero-size hardlink;
defer to the base-class check otherwise. -/
def _verify_link (link_type : String) (size : Nat) (passes : Bool) : Except String Unit :=
  if link_type = "hardlink" ∧ size = 0 then .ok ()
  else base_verify_link passes

/-- `RemoteLOCAL.CACHE_MODE`. -/
def CACHE_MODE : Nat := 0o444

/-- `errno.EROFS` (read-only file system). -/
def EROFS : Nat := 30

/-- `errno.EACCES` (permission denied). -/
def EACCES : Nat := 13

/-- `errno.EPERM` (operation not permitted). -/
def EPERM : Nat := 1

/-- The operating system's response to the `os.chmod` call inside `protect`:
either it succeeds, or it fails with an errno. -/
inductive ChmodOutcome
  | success
  | failure (errno : Nat)
deriving DecidableEq, Repr

/-- Result of `protect`: the errno it re-raised, if any (`none` means it returned
normally), and the mode of the path afterwards. -/
structure ProtectResult where
  raised : Option Nat
  mode_after : Nat
deriving DecidableEq, Repr

/-- `RemoteLOCAL.protect`: chmod the path to `CACHE_MODE`; on `EROFS` return quietly;
on an errno other than `EPERM`/`EACCES` re-raise; on `EPERM`/`EACCES` re-raise unless
the path's current mode already equals `CACHE_MODE`.  `actual_mode` is the mode
`os.stat` reports (unchanged by a failed chmod). -/
def protect (outcome : ChmodOutcome) (actual_mode : Nat) : ProtectResult :=
  match outcome with
  | .success => ⟨none, CACHE_MODE⟩
  | .failure e =>
    if e = EROFS then
      ⟨none, actual_mode⟩
    else if ¬(e = EPERM ∨ e = EACCES) then
      ⟨some e, actual_mode⟩
    else if actual_mode ≠ CACHE_MODE then
      ⟨some e, actual_mode⟩
    else
      ⟨none, actual_mode⟩

/-- `RemoteLOCAL._unprotect_file`: when the file is a symlink or hardlink, copy it to
a dot-prefixed temporary in its directory, remove the original, rename the temporary
in; in every case, finish by chmodding to the configured per-file mode. -/
def _unprotect_file (p : Path) (is_link : Bool) (u : String) (file_mode : Nat) :
    List FsOp :=
  (if is_link then
    let tmp : Path := ⟨p.dir, "." ++ u⟩
    [.copyTo p tmp, .removeOp p, .renameOp tmp p]
  else
    []) ++ [.chmodOp p file_mode]

/-- One regular file found under a directory being unprotected: its path, whether it
is a symlink or hardlink, and the uuid used for its temporary. -/
structure WalkFile where
  path : Path
  is_link : Bool
  u : String
deriving DecidableEq, Repr

/-- `RemoteLOCAL._unprotect_dir`: apply `_unprotect_file` to every regular file the
working-tree walk yields under the directory. -/
def _unprotect_dir (files : List WalkFile) (file_mode : Nat) : List FsOp :=
  (files.map fun f => _unprotect_file f.path f.is_link f.u file_mode).flatten

/-- What the filesystem holds at the path handed to `unprotect`: nothing, a regular
file, or a directory (with the regular files its walk yields). -/
inductive PathKind
  | absent
  | file (is_link : Bool) (u : String)
  | dir (files : List WalkFile)
deriving DecidableEq, Repr

/-- Result of `unprotect`: the raised `DvcException` message, if any, and the trace of
filesystem operations performed. -/
structure UnprotectResult where
  error : Option String
  ops : List FsOp
deriving DecidableEq, Repr

/-- `RemoteLOCAL.unprotect`: raise a `DvcException` when the path does not exist;
recurse for a directory; handle a single file otherwise. -/
def unprotect (p : Path) (kind : PathKind) (file_mode : Nat) : UnprotectResult :=
  match kind with
  | .absent =>
      ⟨some ("can't unprotect non-existing data '" ++ p.fspath ++ "'"), []⟩
  | .dir files => ⟨none, _unprotect_dir files file_mode⟩
  | .file is_link u => ⟨none, _unprotect_file p is_link u file_mode⟩

/-- One entry of a directory manifest: the child file's checksum and its
forward-slash relative path. -/
structure DirEntry where
  md5 : String
  relpath : String
deriving DecidableEq, Repr

/-- `RemoteLOCAL._create_unpacked_dir`, entry loop: link each manifest entry from its
cache path into the unpacked tree with the hardcoded strategy list
`["hardlink", "symlink"]` (the configured `cache_types` are not consulted); `linkOk`
says whether `_link` succeeds on an entry — on the first failure the raised
`DvcException` aborts the loop.  Returns the trace and whether the loop completed
(completing appends the `state.save` record). -/
def _create_entries (cache_path : String → Path) (unpacked : Path) (checksum : String)
    (linkOk : DirEntry → Bool) : List DirEntry → List FsOp × Bool
  | [] => ([.stateSave unpacked checksum], true)
  | e :: es =>
    let op : FsOp := .linkOp (cache_path e.md5) ⟨unpacked.fspath, e.relpath⟩
      ["hardlink", "symlink"]
    if linkOk e then
      let rest := _create_entries cache_path unpacked checksum linkOk es
      (op :: rest.1, rest.2)
    else
      ([op], false)

/-- `RemoteLOCAL._create_unpacked_dir`: make the unpacked directory, then link every
manifest entry; `cache_types` is the remote's configured strategy list, which this
method ignores in favour of the hardcoded `["hardlink", "symlink"]`. -/
def _create_unpacked_dir (cache_types : List String) (cache_path : String → Path)
    (unpacked : Path) (checksum : String) (linkOk : DirEntry → Bool)
    (dir_info : List DirEntry) : List FsOp × Bool :=
  let body := _create_entries cache_path unpacked checksum linkOk dir_info
  (.makedirsOp unpacked :: body.1, body.2)

/-- `RemoteLOCAL._update_unpacked_dir`: do nothing when the state index says the
unpacked directory is current; otherwise remove it, fetch the manifest
(`get_dir_cache`, embedded as `none` when it raises `DvcException`) and rebuild; if
fetching or rebuilding raises `DvcException`, remove the partial unpacked directory. -/
def _update_unpacked_dir (changed : Bool) (cache_types : List String)
    (cache_path : String → Path) (unpacked : Path) (checksum : String)
    (linkOk : DirEntry → Bool) (dir_cache : Option (List DirEntry)) : List FsOp :=
  if ¬changed then
    []
  else
    .removeOp unpacked ::
      match dir_cache with
      | none => [.removeOp unpacked]
      | some dir_info =>
        let created := _create_unpacked_dir cache_types cache_path unpacked checksum
          linkOk dir_info
        created.1 ++ if created.2 then [] else [.removeOp unpacked]

/-! ### Helper lemmas -/

/-- `STATUS_MAP` unfolded into the spec's §4.7 table, with Prop-membership
conditions. -/
theorem STATUS_MAP_eq_table (a b : Bool) :
    STATUS_MAP (a, b) =
      if a = true then (if b = true then Status.ok else Status.new)
      else (if b = true then Status.deleted else Status.missing) := by
  cases a <;> cases b <;> rfl

/-- A filter leaves the multiset of a list unchanged iff every element passes. -/
theorem filter_coe_eq_self_iff (l : List String) (p : String → Bool) :
    ((l.filter p : List String) : Multiset String) = (l : Multiset String) ↔
      ∀ c ∈ l, p c = true := by
  constructor
  · intro h
    have hlen : (l.filter p).length = l.length := by
      have := congrArg Multiset.card h
      simpa using this
    have heq : l.filter p = l := (List.filter_sublist l).eq_of_length hlen
    exact List.filter_eq_self.mp heq
  · intro h
    rw [List.filter_eq_self.mpr h]

/-- On lists of zeroes and ones, the sum is the number of ones. -/
theorem sum_eq_count_one (l : List Nat) (h : ∀ r ∈ l, r = 0 ∨ r = 1) :
    l.sum = l.count 1 := by
  induction l with
  | nil => rfl
  | cons x xs ih =>
    have hx := h x (List.mem_cons_self x xs)
    have hxs : ∀ r ∈ xs, r = 0 ∨ r = 1 := fun r hr => h r (List.mem_cons_of_mem x hr)
    rcases hx with rfl | rfl <;>
      simp [List.sum_cons, List.count_cons, ih hxs, Nat.add_comm]

/-! ### Claim theorems -/

/-- C1: `_fill_statuses` assigns to every named checksum exactly the status the
§4.7 table gives on (locally present, remotely present) — `(F,F)→MISSING`,
`(T,F)→NEW`, `(F,T)→DELETED`, `(T,T)→OK`; on `N={c1,c2,c3,c4}`, `L={c1,c2}`,
`R={c2,c3}` it yields `c1→NEW, c2→OK, c3→DELETED, c4→MISSING`; being a pure
function of `(N, L, R)`, its result depends on nothing else. -/
theorem fill_statuses_matches_table (N L R : List String) :
    _fill_statuses N L R =
      (N.map fun c =>
        (c, if c ∈ L then (if c ∈ R then Status.ok else Status.new)
            else (if c ∈ R then Status.deleted else Status.missing))) ∧
    _fill_statuses ["c1", "c2", "c3", "c4"] ["c1", "c2"] ["c2", "c3"] =
      [("c1", Status.new), ("c2", Status.ok), ("c3", Status.deleted),
       ("c4", Status.missing)] := by
  constructor
  · unfold _fill_statuses
    apply List.map_congr_left
    intro c _
    rw [STATUS_MAP_eq_table]
    by_cases hL : c ∈ L <;> by_cases hR : c ∈ R <;>
      simp [hL, hR, List.elem_iff]
  · decide

/-- C3 counterexample: a checksum that is named but present neither locally nor
remotely is assigned `MISSING`, not `NEW`: with `N={c4}`, `L=∅`, `R=∅`, the
reconciler returns `c4→MISSING` and `MISSING ≠ NEW`. -/
theorem fill_statuses_absent_both_is_missing :
    _fill_statuses ["c4"] [] [] = [("c4", Status.missing)] ∧
      Status.missing ≠ Status.new := by
  decide

/-- C3 amended: the reconciler assigns `NEW` to a named checksum iff it is present
in the local cache and absent from the remote cache; a checksum present in neither
is assigned `MISSING`. -/
theorem fill_statuses_new_iff (N L R : List String) (c : String) (h : c ∈ N) :
    ((c, Status.new) ∈ _fill_statuses N L R ↔ (c ∈ L ∧ c ∉ R)) ∧
    ((c, Status.missing) ∈ _fill_statuses N L R ↔ (c ∉ L ∧ c ∉ R)) := by
  have hmem : ∀ s : Status,
      ((c, s) ∈ _fill_statuses N L R ↔
        STATUS_MAP (L.contains c, R.contains c) = s) := by
    intro s
    unfold _fill_statuses
    rw [List.mem_map]
    constructor
    · rintro ⟨c', _, heq⟩
      obtain ⟨rfl, hs⟩ := Prod.mk.injEq .. ▸ heq
      exact hs
    · intro hs
      exact ⟨c, h, by rw [hs]⟩
  constructor
  · rw [hmem Status.new, STATUS_MAP_eq_table]
    by_cases hL : c ∈ L <;> by_cases hR : c ∈ R <;>
      simp [hL, hR, List.elem_iff]
  · rw [hmem Status.missing, STATUS_MAP_eq_table]
    by_cases hL : c ∈ L <;> by_cases hR : c ∈ R <;>
      simp [hL, hR, List.elem_iff]

/-- Witness for C3's amended theorem at `N={c1}`, `L={c1}`, `R=∅`. -/
theorem fill_statuses_new_iff_witness :
    ("c1", Status.new) ∈ _fill_statuses ["c1"] ["c1"] [] :=
  ((fill_statuses_new_iff ["c1"] ["c1"] [] "c1" (by decide)).1).mpr
    (by constructor <;> decide)

/-- C2: with per-object worker results in `{0,1}` (`1` = failed transfer) and `k`
the number of failures, the engine raises `UploadError(k)` on push and
`DownloadError(k)` on pull iff `k > 0`; with `k = 0` it returns the count of
attempted transfers; a plan of 5 objects with 2 failures raises `UploadError(2)`;
an empty plan returns 0 without raising. -/
theorem process_failure_aggregation (results : List Nat) (k : Nat)
    (h01 : ∀ r ∈ results, r = 0 ∨ r = 1) (hk : k = results.count 1) :
    (k ≠ 0 →
      push results = .error (.uploadError k) ∧
      pull results = .error (.downloadError k)) ∧
    (k = 0 →
      push results = .ok results.length ∧
      pull results = .ok results.length) ∧
    push [1, 0, 1, 0, 0] = .error (.uploadError 2) ∧
    push [] = .ok 0 ∧ pull [] = .ok 0 := by
  have hsum : results.sum = k := hk ▸ sum_eq_count_one results h01
  refine ⟨fun hkne => ?_, fun hkz => ?_, rfl, rfl, rfl⟩
  · have hne : results.length ≠ 0 := by
      intro hlen
      rw [List.length_eq_zero.mp hlen] at hsum
      exact hkne hsum.symm
    constructor <;>
      simp [push, pull, _process, hne, hsum, hkne]
  · subst hkz
    constructor <;>
      · rcases Nat.eq_zero_or_pos results.length with hlen | hlen
        · rw [List.length_eq_zero.mp hlen]
          rfl
        · simp [push, pull, _process, Nat.pos_iff_ne_zero.mp hlen, hsum]

/-- Witness for C2's theorem at the plan `[1,0,1,0,0]` (5 objects, 2 failures) with
`k = 2`. -/
theorem process_failure_aggregation_witness :
    push [1, 0, 1, 0, 0] = .error (.uploadError 2) ∧
    pull [1, 0, 1, 0, 0] = .error (.downloadError 2) :=
  (process_failure_aggregation [1, 0, 1, 0, 0] 2 (by decide) (by decide)).1
    (by decide)

/-- C4: the remote presence query is skipped iff a download plan is requested and
every named checksum is locally present, in which case the remote presence set is
taken to be the local one (`md5s.filter localPresent`); otherwise the remote is
queried. -/
theorem status_remote_probe (download : Bool) (md5s : List String)
    (lp rp : String → Bool) :
    ((status download md5s lp rp).remoteQueried = false ↔
      (download = true ∧ ∀ c ∈ md5s, lp c = true)) ∧
    ((status download md5s lp rp).remoteQueried = false →
      (status download md5s lp rp).remote_exists = md5s.filter lp) ∧
    ((status download md5s lp rp).remoteQueried = true →
      (status download md5s lp rp).remote_exists = md5s.filter rp) := by
  by_cases hc : download = true ∧
      ((md5s.filter lp : List String) : Multiset String) = (md5s : Multiset String)
  · have hall := (filter_coe_eq_self_iff md5s lp).mp hc.2
    unfold status
    rw [if_pos hc]
    exact ⟨iff_of_true rfl ⟨hc.1, hall⟩, fun _ => rfl, fun h => absurd h (by simp)⟩
  · have hnot : ¬(download = true ∧ ∀ c ∈ md5s, lp c = true) := by
      intro ⟨hd, hall⟩
      exact hc ⟨hd, (filter_coe_eq_self_iff md5s lp).mpr hall⟩
    unfold status
    rw [if_neg hc]
    exact ⟨iff_of_false (by simp) hnot, fun h => absurd h (by simp), fun _ => rfl⟩

/-- Witness for C4's theorem: with `download = true` and both named checksums
locally present the probe is skipped and `remote_exists` mirrors the local set;
with `download = false` the probe runs. -/
theorem status_remote_probe_witness :
    (status true ["a", "b"] (fun _ => true) (fun _ => false)).remoteQueried = false ∧
    (status true ["a", "b"] (fun _ => true) (fun _ => false)).remote_exists =
      ["a", "b"] ∧
    (status false ["a", "b"] (fun _ => true) (fun _ => false)).remoteQueried = true := by
  have h1 := (status_remote_probe true ["a", "b"] (fun _ => true) (fun _ => false)).1.mpr
    ⟨rfl, fun c _ => rfl⟩
  have h2 := (status_remote_probe true ["a", "b"] (fun _ => true) (fun _ => false)).2.1 h1
  have h3 : (status false ["a", "b"] (fun _ => true)
      (fun _ => false)).remoteQueried = true := by
    by_contra hfalse
    have := (status_remote_probe false ["a", "b"] (fun _ => true)
      (fun _ => false)).1.mp (Bool.not_eq_true _ ▸ hfalse)
    exact Bool.false_ne_true this.1
  exact ⟨h1, by simpa using h2, h3⟩

/-- C5 counterexample: neither `symlink` nor `hardlink` places its result through a
temporary-then-rename: `symlink` issues a single symlink on the destination itself;
`hardlink` of a zero-size source creates the empty file directly at the destination;
`hardlink` of a nonzero source issues a single hardlink on the destination itself. -/
theorem symlink_hardlink_not_tmp_rename :
    placesViaTmpRename
      (symlink ⟨"/cache/ab", "cdef"⟩ ⟨"/work", "data"⟩) ⟨"/work", "data"⟩ = false ∧
    placesViaTmpRename
      (hardlink ⟨"/cache/ab", "cdef"⟩ ⟨"/work", "data"⟩ 0) ⟨"/work", "data"⟩ = false ∧
    placesViaTmpRename
      (hardlink ⟨"/cache/ab", "cdef"⟩ ⟨"/work", "data"⟩ 7) ⟨"/work", "data"⟩ = false :=
  ⟨rfl, rfl, rfl⟩

/-- C5 amended: `copy` and `reflink` write to a dot-prefixed temporary in the
destination's parent and rename it into place, never touching the destination
before the final rename; `symlink` and `hardlink` instead act directly on the
destination in a single operation (a symlink, a hardlink, or — for a zero-size
source — creating a fresh empty file). -/
theorem copy_reflink_tmp_rename_links_direct (f t : Path) (u : String) (m sz : Nat)
    (hname : t.name ≠ tmp_fname u) (hsz : sz ≠ 0) :
    placesViaTmpRename (copy f t u m) t = true ∧
    placesViaTmpRename (reflink f t u m) t = true ∧
    symlink f t = [.symlinkOp f t] ∧
    hardlink f t sz = [.hardlinkOp f t] ∧
    hardlink f t 0 = [.createEmpty t] := by
  have htmp : (⟨t.dir, tmp_fname u⟩ : Path) ≠ t := by
    intro h
    exact hname (congrArg Path.name h).symm
  have hdot : (tmp_fname u).data.head? = some '.' := by
    simp [tmp_fname, String.data_append]
  refine ⟨?_, ?_, rfl, by simp [hardlink, hsz], rfl⟩ <;>
    simp [copy, reflink, placesViaTmpRename, FsOp.target, hdot, htmp]

/-- Witness for C5's amended theorem at a concrete source, destination, uuid and
nonzero size. -/
theorem copy_reflink_tmp_rename_links_direct_witness :
    placesViaTmpRename
      (copy ⟨"/cache/ab", "cdef"⟩ ⟨"/work", "data"⟩ "u1" 420) ⟨"/work", "data"⟩ = true ∧
    hardlink ⟨"/cache/ab", "cdef"⟩ ⟨"/work", "data"⟩ 7 =
      [.hardlinkOp ⟨"/cache/ab", "cdef"⟩ ⟨"/work", "data"⟩] :=
  ⟨(copy_reflink_tmp_rename_links_direct ⟨"/cache/ab", "cdef"⟩ ⟨"/work", "data"⟩
      "u1" 420 7 (by decide) (by decide)).1,
   (copy_reflink_tmp_rename_links_direct ⟨"/cache/ab", "cdef"⟩ ⟨"/work", "data"⟩
      "u1" 420 7 (by decide) (by decide)).2.2.2.1⟩

/-- C6: a zero-size source makes `hardlink` create a fresh independent empty file at
the destination (not a hard link) and makes `_verify_link` skip the inode-identity
check; a nonzero source makes `hardlink` issue an actual hard link and
`_verify_link` defer to the base-class inode-identity check, which fails whenever
the check does not pass. -/
theorem hardlink_empty_file_exemption (f t : Path) (sz : Nat) (passes : Bool)
    (hsz : sz ≠ 0) :
    hardlink f t 0 = [.createEmpty t] ∧
    (∀ src dst, FsOp.createEmpty t ≠ FsOp.hardlinkOp src dst) ∧
    _verify_link "hardlink" 0 passes = .ok () ∧
    hardlink f t sz = [.hardlinkOp f t] ∧
    _verify_link "hardlink" sz passes = base_verify_link passes ∧
    base_verify_link false = .error "link verification failed" := by
  refine ⟨rfl, fun src dst => by simp, rfl, by simp [hardlink, hsz], ?_, rfl⟩
  simp [_verify_link, hsz]

/-- Witness for C6's theorem at size 7 with a failing inode-identity check. -/
theorem hardlink_empty_file_exemption_witness :
    _verify_link "hardlink" 7 false = base_verify_link false :=
  (hardlink_empty_file_exemption ⟨"/cache/ab", "cdef"⟩ ⟨"/work", "data"⟩ 7 false
    (by decide)).2.2.2.2.1

/-- C7: `protect` chmods the path to `0o444` and returns; a chmod failing with
`EROFS` is tolerated as a no-op; one failing with `EPERM` or `EACCES` is tolerated
iff the current mode already equals `0o444` and re-raised otherwise; any other
chmod errno is re-raised. -/
theorem protect_spec (m e : Nat) :
    protect .success m = ⟨none, 0o444⟩ ∧
    protect (.failure EROFS) m = ⟨none, m⟩ ∧
    protect (.failure EPERM) m =
      (if m = 0o444 then ⟨none, m⟩ else ⟨some EPERM, m⟩) ∧
    protect (.failure EACCES) m =
      (if m = 0o444 then ⟨none, m⟩ else ⟨some EACCES, m⟩) ∧
    (e ≠ EROFS → e ≠ EPERM → e ≠ EACCES → protect (.failure e) m = ⟨some e, m⟩) := by
  refine ⟨rfl, rfl, ?_, ?_, ?_⟩
  · by_cases hm : m = 0o444 <;> simp [protect, EROFS, EPERM, EACCES, CACHE_MODE, hm]
  · by_cases hm : m = 0o444 <;> simp [protect, EROFS, EPERM, EACCES, CACHE_MODE, hm]
  · intro h1 h2 h3
    simp [protect, h1, h2, h3]

/-- Witness for C7's theorem: `ENOENT` (errno 2) is not one of the tolerated
errnos, and `protect` re-raises it. -/
theorem protect_spec_witness :
    protect (.failure 2) 0o644 = ⟨some 2, 0o644⟩ :=
  (protect_spec 0o644 2).2.2.2.2 (by decide) (by decide) (by decide)

/-- C8: unprotecting a regular file that is a symlink or hardlink copies it to a
dot-prefixed temporary in its parent, removes the original, renames the temporary to
the path — in exactly that order — and then chmods to the configured per-file mode;
a regular file that is neither is only chmodded; a directory gets the file
procedure applied to every regular file its walk yields. -/
theorem unprotect_file_dir_spec (p : Path) (u : String) (m : Nat)
    (files : List WalkFile) :
    _unprotect_file p true u m =
      [.copyTo p ⟨p.dir, "." ++ u⟩, .removeOp p, .renameOp ⟨p.dir, "." ++ u⟩ p,
       .chmodOp p m] ∧
    _unprotect_file p false u m = [.chmodOp p m] ∧
    _unprotect_dir files m =
      (files.map fun f => _unprotect_file f.path f.is_link f.u m).flatten ∧
    ∀ f ∈ files, List.IsInfix (_unprotect_file f.path f.is_link f.u m)
      (_unprotect_dir files m) := by
  refine ⟨rfl, rfl, rfl, ?_⟩
  intro f hf
  exact List.infix_of_mem_flatten (List.mem_map_of_mem _ hf)

/-- Witness for C8's theorem: a one-file directory contains its file's trace. -/
theorem unprotect_file_dir_spec_witness :
    List.IsInfix (_unprotect_file ⟨"/w", "f"⟩ false "u" 0o644)
      (_unprotect_dir [⟨⟨"/w", "f"⟩, false, "u"⟩] 0o644) :=
  (unprotect_file_dir_spec ⟨"/w", "f"⟩ "u" 0o644 [⟨⟨"/w", "f"⟩, false, "u"⟩]).2.2.2
    ⟨⟨"/w", "f"⟩, false, "u"⟩ (by simp)

/-- C9: `unprotect` on a non-existing path raises a `DvcException` (and raises only
then) and performs no filesystem operation. -/
theorem unprotect_absent_raises (p : Path) (m : Nat) (k : PathKind) :
    ((unprotect p k m).error.isSome ↔ k = .absent) ∧
    (unprotect p .absent m).ops = [] ∧
    (unprotect p .absent m).error =
      some ("can't unprotect non-existing data '" ++ p.fspath ++ "'") := by
  refine ⟨?_, rfl, rfl⟩
  cases k <;> simp [unprotect]

/-- Witness for C9's theorem at a concrete absent path. -/
theorem unprotect_absent_raises_witness :
    (unprotect ⟨"/w", "f"⟩ .absent 0o644).error.isSome = true ∧
    (unprotect ⟨"/w", "f"⟩ .absent 0o644).ops = [] :=
  ⟨(unprotect_absent_raises ⟨"/w", "f"⟩ 0o644 .absent).1.mpr rfl,
   (unprotect_absent_raises ⟨"/w", "f"⟩ 0o644 .absent).2.1⟩

/-- Every link issued while creating an unpacked directory uses the hardcoded
strategy list `["hardlink", "symlink"]`. -/
theorem create_entries_link_types (cp : String → Path) (unp : Path) (cs : String)
    (ok : DirEntry → Bool) (es : List DirEntry) (src dst : Path)
    (tys : List String)
    (h : FsOp.linkOp src dst tys ∈ (_create_entries cp unp cs ok es).1) :
    tys = ["hardlink", "symlink"] := by
  induction es with
  | nil => simp [_create_entries] at h
  | cons e es ih =>
    simp only [_create_entries] at h
    by_cases hok : ok e = true
    · rw [if_pos hok] at h
      rcases List.mem_cons.mp h with h | h
      · exact (FsOp.linkOp.injEq .. ▸ h).2.2
      · exact ih h
    · rw [if_neg hok] at h
      rcases List.mem_cons.mp h with h | h
      · exact (FsOp.linkOp.injEq .. ▸ h).2.2
      · cases h

/-- C10: rebuilding the unpacked directory of a directory checksum links every
manifest entry with the fixed strategy list `["hardlink", "symlink"]` and its trace
does not depend on the configured cache types; when fetching the manifest raises
`DvcException` (`dir_cache = none`) or creating the tree fails partway, the trace
ends by removing the unpacked directory, so no partial unpacked tree remains; when
the state index says the unpacked directory is current, nothing is done. -/
theorem update_unpacked_dir_spec (cts cts' : List String) (cp : String → Path)
    (unp : Path) (cs : String) (ok : DirEntry → Bool)
    (dc : Option (List DirEntry)) :
    (∀ src dst tys,
      FsOp.linkOp src dst tys ∈ _update_unpacked_dir true cts cp unp cs ok dc →
        tys = ["hardlink", "symlink"]) ∧
    (_update_unpacked_dir true cts cp unp cs ok dc =
      _update_unpacked_dir true cts' cp unp cs ok dc) ∧
    ((_update_unpacked_dir true cts cp unp cs ok none).getLast? =
      some (.removeOp unp)) ∧
    (∀ di, (_create_unpacked_dir cts cp unp cs ok di).2 = false →
      (_update_unpacked_dir true cts cp unp cs ok (some di)).getLast? =
        some (.removeOp unp)) ∧
    _update_unpacked_dir false cts cp unp cs ok dc = [] := by
  refine ⟨?_, rfl, rfl, ?_, rfl⟩
  · intro src dst tys h
    cases dc with
    | none => simp [_update_unpacked_dir] at h
    | some di =>
      have hu : _update_unpacked_dir true cts cp unp cs ok (some di) =
          (.removeOp unp :: .makedirsOp unp :: (_create_entries cp unp cs ok di).1) ++
            (if (_create_entries cp unp cs ok di).2 then []
             else [.removeOp unp]) := rfl
      rw [hu] at h
      rcases List.mem_append.mp h with h | h
      · rcases List.mem_cons.mp h with h | h
        · exact FsOp.noConfusion h
        · rcases List.mem_cons.mp h with h | h
          · exact FsOp.noConfusion h
          · exact create_entries_link_types cp unp cs ok di src dst tys h
      · by_cases h2 : (_create_entries cp unp cs ok di).2 = true
        · rw [if_pos h2] at h
          cases h
        · rw [if_neg h2] at h
          rcases List.mem_cons.mp h with h | h
          · exact FsOp.noConfusion h
          · cases h
  · intro di hdi
    have hdi' : (_create_entries cp unp cs ok di).2 = false := hdi
    have hu : _update_unpacked_dir true cts cp unp cs ok (some di) =
        (.removeOp unp :: .makedirsOp unp :: (_create_entries cp unp cs ok di).1) ++
          (if (_create_entries cp unp cs ok di).2 then []
           else [.removeOp unp]) := rfl
    rw [hu, hdi', if_neg (by simp), List.getLast?_concat]

/-- Witness for C10's theorem: a failing link leaves a trace ending in the removal
of the unpacked directory, and a concrete link in a successful rebuild carries the
fixed strategy list. -/
theorem update_unpacked_dir_spec_witness :
    (_update_unpacked_dir true ["copy"] (fun s => ⟨"/c", s⟩) ⟨"/c", "x.dir.unpacked"⟩
        "xcs" (fun _ => false) (some [⟨"m", "r"⟩])).getLast? =
      some (.removeOp ⟨"/c", "x.dir.unpacked"⟩) :=
  (update_unpacked_dir_spec ["copy"] ["hardlink"] (fun s => ⟨"/c", s⟩)
      ⟨"/c", "x.dir.unpacked"⟩ "xcs" (fun _ => false) (some [⟨"m", "r"⟩])).2.2.2.1
    [⟨"m", "r"⟩] rfl

end DVC
